import Mathlib

/-!
Shallow embedding of `storytracker/analysis.py` (pastpages/storytracker).

The module is a Python 2/3 source (it imports `six` and `unicodecsv` for
Python 2); the operative arithmetic semantics used below for the `/`
operator in `write_hyperlinks_csv_to_file` is Python 2 integer (floor)
division, which is what the code relies on (`range` over the quotient).
Python exceptions are modelled by `PyExc`, fallible code by `Except`.
Optional (possibly-`None`) integer attributes are `Option Int`;
Python truthiness of such a value is false exactly for `None` and `0`.
-/

namespace Storytracker

/-- Python exception kinds that the embedded code can raise or catch. -/
inductive PyExc
  | valueError
  | typeError
  | attributeError
  | other : Nat → PyExc
deriving DecidableEq

/-- Python `str(...)` of an int-or-None value. -/
def strOfOptInt : Option Int → String
  | none => "None"
  | some n => toString n

/-- Python `str(...)` of a string-or-None value. -/
def strOfOptStr : Option String → String
  | none => "None"
  | some s => s

/-- Python `str(...)` of a bool. -/
def strOfBool : Bool → String
  | true => "True"
  | false => "False"

/-- `class Image`: an image extracted from an archived URL
(`src`, `width`, `height`, `x`, `y`; all but `src` default to `None`). -/
structure Image where
  src : String
  width : Option Int := none
  height : Option Int := none
  x : Option Int := none
  y : Option Int := none
deriving DecidableEq

/-- `Image.area`: `if not self.width or not self.height: return None;
return self.width * self.height`.  `not x` is true for `None` and `0`. -/
def Image.area (i : Image) : Option Int :=
  match i.width, i.height with
  | some w, some h => if w == 0 || h == 0 then none else some (w * h)
  | _, _ => none

/-- `Image.orientation`: `None` when either dimension is falsy, else
`square` / `landscape` / `portrait` by comparing width and height
(the final `elif` falls through to an implicit `None`). -/
def Image.orientation (i : Image) : Option String :=
  match i.width, i.height with
  | some w, some h =>
    if w == 0 || h == 0 then none
    else if w == h then some "square"
    else if w > h then some "landscape"
    else if h > w then some "portrait"
    else none
  | _, _ => none

/-- `class Hyperlink`: a hyperlink extracted from an archived URL.
`domain` is set by `__init__` via `urlparse(href).netloc` (external
collaborator), so it is carried as a field here. -/
structure Hyperlink where
  href : String
  string : String
  index : Nat
  domain : String
  images : List Image := []
  x : Option Int := none
  y : Option Int := none
  font_size : Option String := none
deriving DecidableEq

/-- `Hyperlink.is_story`: `try: return storysniffer.guess(self.href)
except ValueError: return False`.  The external classifier is a
parameter `guess`; only `ValueError` is caught. -/
def Hyperlink.is_story (guess : String → Except PyExc Bool) (h : Hyperlink) :
    Except PyExc Bool :=
  match guess h.href with
  | .ok b => .ok b
  | .error e => if e = PyExc.valueError then .ok false else .error e

/-- The seven per-image cells appended by `Hyperlink.__csv__`
(`src`, `width`, `height`, `orientation`, `area`, `x`, `y`),
each passed through `six.text_type`. -/
def csvImageCells (img : Image) : List String :=
  [img.src, strOfOptInt img.width, strOfOptInt img.height,
   strOfOptStr img.orientation, strOfOptInt img.area,
   strOfOptInt img.x, strOfOptInt img.y]

/-- `Hyperlink.__csv__`: the eight fixed per-link cells followed by seven
cells per nested image, all stringified.  Evaluating `self.is_story` may
raise, so the result is fallible. -/
def Hyperlink.csv (guess : String → Except PyExc Bool) (h : Hyperlink) :
    Except PyExc (List String) := do
  let story ← Hyperlink.is_story guess h
  pure ([h.href, h.domain, (if h.string = "" then "" else h.string),
         toString h.index, strOfBool story, strOfOptInt h.x,
         strOfOptInt h.y, strOfOptStr h.font_size]
        ++ h.images.flatMap csvImageCells)

/-- The ten fixed header names of `write_hyperlinks_csv_to_file`. -/
def fixedHeaders : List String :=
  ["archive_url", "archive_timestamp", "url_href", "url_domain",
   "url_string", "url_index", "url_is_story", "url_x", "url_y",
   "url_font_size"]

/-- The seven header names appended for image slot number `i`
(the source appends them with `i + 1`, so numbering starts at 1). -/
def imageSlotHeaders (i : Nat) : List String :=
  ["image_" ++ toString i ++ "_src",
   "image_" ++ toString i ++ "_width",
   "image_" ++ toString i ++ "_height",
   "image_" ++ toString i ++ "_orientation",
   "image_" ++ toString i ++ "_area",
   "image_" ++ toString i ++ "_x",
   "image_" ++ toString i ++ "_y"]

/-- Python `max(...)` over a list of row lengths: raises `ValueError`
on an empty sequence. -/
def pyMax : List Nat → Except PyExc Nat
  | [] => .error PyExc.valueError
  | x :: xs => .ok (xs.foldl Nat.max x)

/-- The header construction of `write_hyperlinks_csv_to_file`:
`for i in range((longest_row - len(headers)) / 7)` appends
`imageSlotHeaders (i + 1)` (Python 2 floor division). -/
def buildHeaders (longest_row : Nat) : List String :=
  fixedHeaders ++
    (List.range ((longest_row - fixedHeaders.length) / 7)).flatMap
      (fun i => imageSlotHeaders (i + 1))

/-- The row-building loop of `write_hyperlinks_csv_to_file`: each row is
`map(six.text_type, [self.url, self.timestamp]) + h.__csv__()`; an
exception from a link's `__csv__` propagates out of the loop. -/
def buildRows (guess : String → Except PyExc Bool) (url timestamp : String) :
    List Hyperlink → Except PyExc (List (List String))
  | [] => .ok []
  | h :: rest => do
    let c ← Hyperlink.csv guess h
    let rs ← buildRows guess url timestamp rest
    pure (([url, timestamp] ++ c) :: rs)

/-- `ArchivedURL.write_hyperlinks_csv_to_file`, as the pair
(header row, data rows) it writes: builds every row, computes
`longest_row = max([len(r) for r in row_list])`, then the headers. -/
def write_hyperlinks_csv (guess : String → Except PyExc Bool)
    (url timestamp : String) (hyperlinks : List Hyperlink) :
    Except PyExc (List String × List (List String)) := do
  let row_list ← buildRows guess url timestamp hyperlinks
  let longest_row ← pyMax (row_list.map List.length)
  pure (buildHeaders longest_row, row_list)

/-- What `Hyperlink.__eq__` may be compared against (an `Image`, or
another `Hyperlink`). -/
inductive HyOther
  | image (i : Image)
  | link (l : Hyperlink)
deriving DecidableEq

/-- `Hyperlink.__eq__(self, other)`: `if not isinstance(other, Image):
return NotImplemented` (modelled as `.ok none`); otherwise it reads
`other.href` — but `Image` has no `href` attribute, so that access
raises `AttributeError`. -/
def Hyperlink.eqMethod (_self : Hyperlink) (other : HyOther) :
    Except PyExc (Option Bool) :=
  match other with
  | .link _ => .ok none
  | .image _ => .error PyExc.attributeError

/-- Python `a == b` on two `Hyperlink` objects with object identities
`ida`, `idb`: try `a.__eq__(b)`, then the reflected `b.__eq__(a)`, and
when both return `NotImplemented` fall back to identity (`a is b`). -/
def pyEqHyperlink (ida idb : Nat) (a b : Hyperlink) : Except PyExc Bool :=
  match Hyperlink.eqMethod a (.link b) with
  | .error e => .error e
  | .ok (some r) => .ok r
  | .ok none =>
    match Hyperlink.eqMethod b (.link a) with
    | .error e => .error e
    | .ok (some r) => .ok r
    | .ok none => .ok (ida == idb)

/-- `class ArchivedURL`: the identity triple (`url`, `timestamp`,
`html`); the timestamp is carried in its string form. -/
structure ArchivedURL where
  url : String
  timestamp : String
  html : String
deriving DecidableEq

/-- `ArchivedURL.__eq__` between two `ArchivedURL` objects: equal iff
`url`, `timestamp` and `html` all match (nested `if`s in the source). -/
def ArchivedURL.eqMethod (a b : ArchivedURL) : Bool :=
  if a.url = b.url then
    if a.timestamp = b.timestamp then
      if a.html = b.html then true else false
    else false
  else false

/-- A value handed to `ArchivedURLSet` — an `ArchivedURL` or anything
else (`other`), which must be rejected with `TypeError`. -/
inductive PyVal
  | page (p : ArchivedURL)
  | other (n : Nat)
deriving DecidableEq

/-- The checking loop of `ArchivedURLSet.__init__`: walks `obj_list`
accumulating `safe_list`, raising `TypeError` for a non-`ArchivedURL`
and `ValueError` when the object is already in `safe_list` (membership
via `ArchivedURL.__eq__`). -/
def initLoop (seen : List ArchivedURL) :
    List PyVal → Except PyExc (List ArchivedURL)
  | [] => .ok seen
  | v :: rest =>
    match v with
    | .other _ => .error PyExc.typeError
    | .page p =>
      if seen.any (fun o => ArchivedURL.eqMethod o p) then
        .error PyExc.valueError
      else initLoop (seen ++ [p]) rest

/-- `ArchivedURLSet.__init__(obj_list)`: run the checks, then the list
is initialised with the elements of `obj_list` (the same pages the
checks accumulated, in order). -/
def ArchivedURLSet.init (obj_list : List PyVal) :
    Except PyExc (List ArchivedURL) :=
  initLoop [] obj_list

/-- `ArchivedURLSet.append(obj)`: `TypeError` for a non-`ArchivedURL`,
`ValueError` if an equal page is already present, otherwise append
`copy.copy(obj)` (at value level the copy has the same fields). -/
def ArchivedURLSet.append (self : List ArchivedURL) (obj : PyVal) :
    Except PyExc (List ArchivedURL) :=
  match obj with
  | .other _ => .error PyExc.typeError
  | .page p =>
    if self.any (fun o => ArchivedURL.eqMethod o p) then
      .error PyExc.valueError
    else .ok (self ++ [p])

/-- No two elements of the list are equal under `ArchivedURL.__eq__`. -/
def noDup (l : List ArchivedURL) : Prop :=
  List.Pairwise (fun a b => ArchivedURL.eqMethod a b = false) l

/-! ### Aliasing model for shallow-copy-on-insert

Pages live in a `Store`; an index into `Store.pages` is an object
reference.  `append` stores `copy.copy(obj)` — a fresh cell with the
same field values — while `__init__` passes `obj_list` itself to
`list.__init__`, storing the original references with no copy. -/

/-- The heap of `ArchivedURL` objects; an address is an index. -/
structure Store where
  pages : List ArchivedURL
deriving DecidableEq

/-- Dereference an address. -/
def Store.get (st : Store) (addr : Nat) : Option ArchivedURL :=
  st.pages.get? addr

/-- Mutate the object at an address in place. -/
def Store.set (st : Store) (addr : Nat) (p : ArchivedURL) : Store :=
  ⟨st.pages.set addr p⟩

/-- The `__init__` checking loop over references: dereferences each
address, runs the type and duplicate checks, and accumulates the
original addresses (no copy is made on this path). -/
def initRefLoop (st : Store) (seen : List Nat) :
    List Nat → Except PyExc (List Nat)
  | [] => .ok seen
  | a :: rest =>
    match st.get a with
    | none => .error PyExc.typeError
    | some p =>
      if seen.any (fun b =>
          match st.get b with
          | some q => ArchivedURL.eqMethod q p
          | none => false) then .error PyExc.valueError
      else initRefLoop st (seen ++ [a]) rest

/-- `ArchivedURLSet.__init__` over references: the stored element list
is the caller's original references. -/
def ArchivedURLSet.initRef (st : Store) (addrs : List Nat) :
    Except PyExc (List Nat) :=
  initRefLoop st [] addrs

/-- `ArchivedURLSet.append` over references: after the checks,
`copy.copy(obj)` allocates a fresh cell holding the same field values
and the container stores the fresh address. -/
def ArchivedURLSet.appendRef (st : Store) (self : List Nat) (a : Nat) :
    Except PyExc (Store × List Nat) :=
  match st.get a with
  | none => .error PyExc.typeError
  | some p =>
    if self.any (fun b =>
        match st.get b with
        | some q => ArchivedURL.eqMethod q p
        | none => false) then .error PyExc.valueError
    else .ok (⟨st.pages ++ [p]⟩, self ++ [st.pages.length])

/-! ### Browser lifecycle and `analyze` -/

/-- The mutable analysis state of an `ArchivedURL`: the owned browser
handle (`self.browser`, here just whether one is owned) and the two
caches `self._hyperlinks` / `self._images`. -/
structure PageState where
  browser : Bool
  hyperlinks : List Hyperlink
  images : List Image
deriving DecidableEq

/-- `open_browser`: no-op if a browser is already owned, else acquire
one (driver start-up and the temp-file details are outside this model). -/
def open_browser (s : PageState) : PageState :=
  if s.browser then s else { s with browser := true }

/-- `close_browser`: no-op if no browser is owned, else release the
handle and null the reference. -/
def close_browser (s : PageState) : PageState :=
  if s.browser then { s with browser := false } else s

/-- `get_hyperlinks(force=True)`: opens the browser if needed, then the
DOM walk either yields a list (cached) or raises; the raised exception
is returned alongside the state reached. -/
def get_hyperlinks_force (extract : Except Unit (List Hyperlink))
    (s : PageState) : PageState × Option Unit :=
  let s1 := if s.browser then s else open_browser s
  match extract with
  | .ok l => ({ s1 with hyperlinks := l }, none)
  | .error e => (s1, some e)

/-- `get_images(force=True)`: same shape as `get_hyperlinks_force`. -/
def get_images_force (extract : Except Unit (List Image))
    (s : PageState) : PageState × Option Unit :=
  let s1 := if s.browser then s else open_browser s
  match extract with
  | .ok l => ({ s1 with images := l }, none)
  | .error e => (s1, some e)

/-- `analyze()`: `open_browser(); get_hyperlinks(force=True);
get_images(force=True); close_browser()` — a plain statement sequence
with no `try/finally`, so an exception from either extraction
propagates immediately and the remaining statements do not run. -/
def analyze (eh : Except Unit (List Hyperlink))
    (ei : Except Unit (List Image)) (s : PageState) :
    PageState × Option Unit :=
  let s1 := open_browser s
  match get_hyperlinks_force eh s1 with
  | (s2, some e) => (s2, some e)
  | (s2, none) =>
    match get_images_force ei s2 with
    | (s3, some e) => (s3, some e)
    | (s3, none) => (close_browser s3, none)

/-! ### `largest_image` -/

/-- Python 2 `>=` on `int`-or-`None` sort keys: `None` compares smaller
than every integer. -/
def pyGeArea : Option Int → Option Int → Bool
  | none, none => true
  | none, some _ => false
  | some _, none => true
  | some a, some b => a ≥ b

/-- Stable insertion into a descending-by-area list: the new element
goes before the first element whose key it weakly exceeds.  Together
with `sortDescByArea` this is Python's stable
`sorted(key=lambda x: x.area, reverse=True)` under Python 2 ordering. -/
def insertDesc (x : Image) : List Image → List Image
  | [] => [x]
  | y :: ys => if pyGeArea x.area y.area then x :: y :: ys
               else y :: insertDesc x ys

/-- Stable descending sort by `area` (ties keep document order). -/
def sortDescByArea : List Image → List Image
  | [] => []
  | x :: xs => insertDesc x (sortDescByArea xs)

/-- `ArchivedURL.largest_image`:
`sorted(self.images, key=lambda x: x.area, reverse=True)[0]`, with the
`IndexError` on an empty list caught and turned into `None`. -/
def largest_image (imgs : List Image) : Option Image :=
  match sortDescByArea imgs with
  | [] => none
  | x :: _ => some x

/-- First element attaining the maximal area key (earlier elements win
ties): the head of the stable descending sort, in recursive form. -/
def pickFirstMax : List Image → Option Image
  | [] => none
  | x :: xs =>
    match pickFirstMax xs with
    | none => some x
    | some m => if pyGeArea x.area m.area then some x else some m

/-! ### Concrete example data (used by witnesses) -/

/-- An always-`True` story classifier for examples. -/
def exGuess : String → Except PyExc Bool := fun _ => Except.ok true

/-- A 100×50 example image. -/
def exImage : Image :=
  { src := "http://y.com/i.jpg", width := some 100, height := some 50,
    x := some 0, y := some 0 }

/-- An example link with no nested image. -/
def exLink0 : Hyperlink :=
  { href := "http://x.com/a", string := "A", index := 0,
    domain := "x.com" }

/-- An example link with one nested image. -/
def exLink1 : Hyperlink :=
  { href := "http://y.com/b", string := "B", index := 1,
    domain := "y.com", images := [exImage] }

/-- The exporter row for `exLink0` (10 cells). -/
def exRow0 : List String :=
  ["u", "t", "http://x.com/a", "x.com", "A", "0", "True", "None",
   "None", "None"]

/-- The exporter row for `exLink1` (10 + 7 cells). -/
def exRow1 : List String :=
  ["u", "t", "http://y.com/b", "y.com", "B", "1", "True", "None",
   "None", "None", "http://y.com/i.jpg", "100", "50", "landscape",
   "5000", "0", "0"]

/-- The exporter header row for the example page (one image slot). -/
def exHeaders : List String := fixedHeaders ++ imageSlotHeaders 1

/-! ## Theorems -/

/-- C1: the claim says the exporter must return an empty row set without
error when a page has zero cached hyperlinks; the code instead evaluates
`max([len(r) for r in row_list])` over an empty list, which raises
`ValueError`.  Evaluating the embedded exporter at the failing input
(zero links) yields exactly that error. -/
theorem exporter_empty_hyperlinks_raises :
    write_hyperlinks_csv (fun _ => Except.ok true)
      "http://example.com" "2014-01-01 00:00:00" [] =
      Except.error PyExc.valueError := rfl

/-- C2: the claim says two `Hyperlink` values are equal iff their `href`
fields match.  `Hyperlink.__eq__` tests `isinstance(other, Image)`, so a
Link-vs-Link comparison returns `NotImplemented` from both sides and
Python falls back to identity: two distinct objects with the same `href`
compare unequal. -/
theorem hyperlink_eq_same_href_distinct_objects_unequal :
    Hyperlink.eqMethod
        { href := "http://example.com/a", string := "one", index := 0,
          domain := "example.com" }
        (HyOther.link
          { href := "http://example.com/a", string := "two", index := 1,
            domain := "example.com" }) = Except.ok none ∧
    pyEqHyperlink 0 1
        { href := "http://example.com/a", string := "one", index := 0,
          domain := "example.com" }
        { href := "http://example.com/a", string := "two", index := 1,
          domain := "example.com" } = Except.ok false := ⟨rfl, rfl⟩

/-- C4 counterexample: an `Image` with both dimensions present but one
of them `0` (width = 0, height = 5): the claim requires an orientation
from the trichotomy and `area = width * height = 0`, but the code
returns `None` for both. -/
theorem image_zero_width_present_unclassified :
    (Image.mk "http://example.com/i.jpg" (some 0) (some 5) none
        none).width = some 0 ∧
    (Image.mk "http://example.com/i.jpg" (some 0) (some 5) none
        none).height = some 5 ∧
    (Image.mk "http://example.com/i.jpg" (some 0) (some 5) none
        none).area = none ∧
    (Image.mk "http://example.com/i.jpg" (some 0) (some 5) none
        none).orientation = none := by
  refine ⟨rfl, rfl, rfl, rfl⟩

/-- C4 (amended): for every `Image` with both dimensions present and
nonzero, `area = width * height` and `orientation` is exactly one of
`square`/`landscape`/`portrait`, consistent with the comparison; with
either dimension absent or zero, `area` and `orientation` are both
`None`. -/
theorem image_area_orientation_amended (i : Image) :
    (∀ w h : Int, i.width = some w → i.height = some h → w ≠ 0 → h ≠ 0 →
      i.area = some (w * h) ∧
      ((w = h ∧ i.orientation = some "square") ∨
       (w > h ∧ i.orientation = some "landscape") ∨
       (h > w ∧ i.orientation = some "portrait"))) ∧
    ((i.width = none ∨ i.height = none ∨
      i.width = some 0 ∨ i.height = some 0) →
      i.area = none ∧ i.orientation = none) := by
  constructor
  · intro w h hw hh hw0 hh0
    constructor
    · simp [Image.area, hw, hh, hw0, hh0]
    · rcases lt_trichotomy w h with hlt | heq | hgt
      · refine Or.inr (Or.inr ⟨hlt, ?_⟩)
        have hne : ¬ (w = h) := by omega
        have hngt : ¬ (w > h) := by omega
        simp [Image.orientation, hw, hh, hw0, hh0, hne, hngt, hlt]
      · refine Or.inl ⟨heq, ?_⟩
        simp [Image.orientation, hw, hh, hw0, hh0, heq]
      · refine Or.inr (Or.inl ⟨hgt, ?_⟩)
        have hne : ¬ (w = h) := by omega
        simp [Image.orientation, hw, hh, hw0, hh0, hne, hgt]
  · rintro (hw | hh | hw | hh) <;>
      rcases hcw : i.width with _ | w <;> rcases hch : i.height with _ | h <;>
      simp_all [Image.area, Image.orientation]

/-- C4 witness: the amended theorem evaluated at width 4, height 3. -/
theorem image_area_orientation_amended_witness :
    (Image.mk "i" (some 4) (some 3) none none).area = some (4 * 3) ∧
    (((4 : Int) = 3 ∧
      (Image.mk "i" (some 4) (some 3) none none).orientation =
        some "square") ∨
     ((4 : Int) > 3 ∧
      (Image.mk "i" (some 4) (some 3) none none).orientation =
        some "landscape") ∨
     ((3 : Int) > 4 ∧
      (Image.mk "i" (some 4) (some 3) none none).orientation =
        some "portrait")) :=
  (image_area_orientation_amended (Image.mk "i" (some 4) (some 3)
    none none)).1 4 3 rfl rfl (by decide) (by decide)

/-- C10: an `Image` whose width or height is supplied but equals `0`
has `area = None` and `orientation = None`: Python truthiness (`not
self.width`) treats `0` exactly like a missing dimension. -/
theorem image_zero_dimension_like_missing (i : Image)
    (h : i.width = some 0 ∨ i.height = some 0) :
    i.area = none ∧ i.orientation = none := by
  rcases h with hw | hh <;>
    rcases hcw : i.width with _ | w <;> rcases hch : i.height with _ | h <;>
    simp_all [Image.area, Image.orientation]

/-- C10 witness: a concrete image with width 7 and height 0. -/
theorem image_zero_dimension_like_missing_witness :
    ((Image.mk "z" (some 7) (some 0) none none).width = some 0 ∨
     (Image.mk "z" (some 7) (some 0) none none).height = some 0) ∧
    (Image.mk "z" (some 7) (some 0) none none).area = none ∧
    (Image.mk "z" (some 7) (some 0) none none).orientation = none :=
  ⟨Or.inr rfl,
   image_zero_dimension_like_missing
     (Image.mk "z" (some 7) (some 0) none none) (Or.inr rfl)⟩

/-- C5 counterexample: `analyze()` with a failing hyperlink extraction
leaves the browser open — the claim says the handle is closed when
`analyze()` returns even when an intermediate step fails, but the code
has no `try/finally`, so `close_browser()` never runs. -/
theorem analyze_failure_leaves_browser_open :
    (analyze (Except.error ()) (Except.ok [])
        (PageState.mk false [] [])).1.browser = true ∧
    (analyze (Except.error ()) (Except.ok [])
        (PageState.mk false [] [])).2 = some () := ⟨rfl, rfl⟩

/-- C5 (amended): `analyze()` performs open-browser, force-refresh
hyperlinks, force-refresh images, close-browser in sequence; when both
extractions succeed the browser is closed on return, but when an
extraction fails the error propagates and the browser is left open
(only the steps before the failure have run). -/
theorem analyze_amended_characterization (eh : Except Unit (List Hyperlink))
    (ei : Except Unit (List Image)) (s : PageState) :
    analyze eh ei s =
      match eh with
      | .error e =>
        ({ browser := true, hyperlinks := s.hyperlinks,
           images := s.images }, some e)
      | .ok lh =>
        match ei with
        | .error e =>
          ({ browser := true, hyperlinks := lh, images := s.images },
           some e)
        | .ok li =>
          ({ browser := false, hyperlinks := lh, images := li }, none) := by
  rcases s with ⟨b, hs, is⟩
  cases eh <;> cases ei <;> cases b <;> rfl

/-- C9 counterexample: the claim says `isStory` returns `false` on any
classifier failure; the code catches only `ValueError`, so a classifier
raising `TypeError` propagates out of `is_story`. -/
theorem is_story_non_valueerror_propagates :
    Hyperlink.is_story (fun _ => Except.error PyExc.typeError)
      { href := "http://example.com/a", string := "a", index := 0,
        domain := "example.com" } = Except.error PyExc.typeError := rfl

/-- C9 (amended): `is_story` returns the classifier's boolean on
success and `false` when the classifier raises `ValueError`; any other
classifier exception propagates to the caller. -/
theorem is_story_amended (guess : String → Except PyExc Bool)
    (h : Hyperlink) :
    (∀ b, guess h.href = Except.ok b →
      Hyperlink.is_story guess h = Except.ok b) ∧
    (guess h.href = Except.error PyExc.valueError →
      Hyperlink.is_story guess h = Except.ok false) ∧
    (∀ e, e ≠ PyExc.valueError → guess h.href = Except.error e →
      Hyperlink.is_story guess h = Except.error e) := by
  refine ⟨?_, ?_, ?_⟩
  · intro b hb
    simp [Hyperlink.is_story, hb]
  · intro hb
    simp [Hyperlink.is_story, hb]
  · intro e he hb
    simp [Hyperlink.is_story, hb, he]

/-- C9 witness: a `ValueError`-raising classifier degrades to `false`
on a concrete link. -/
theorem is_story_amended_witness :
    Hyperlink.is_story (fun _ => Except.error PyExc.valueError)
      { href := "http://example.com/a", string := "a", index := 0,
        domain := "example.com" } = Except.ok false :=
  (is_story_amended (fun _ => Except.error PyExc.valueError)
    { href := "http://example.com/a", string := "a", index := 0,
      domain := "example.com" }).2.1 rfl

/-- Helper: the `__init__` checking loop preserves duplicate-freedom of
the accumulated `safe_list`. -/
theorem initLoop_noDup (rest : List PyVal) :
    ∀ seen l, noDup seen → initLoop seen rest = Except.ok l → noDup l := by
  induction rest with
  | nil =>
    intro seen l hnd hok
    simp only [initLoop] at hok
    cases hok
    exact hnd
  | cons v rest ih =>
    intro seen l hnd hok
    cases v with
    | other n => simp [initLoop] at hok
    | page p =>
      simp only [initLoop] at hok
      by_cases hmem : seen.any (fun o => ArchivedURL.eqMethod o p) = true
      · simp [hmem] at hok
      · simp only [hmem, if_false, Bool.not_eq_true] at hok
        refine ih (seen ++ [p]) l ?_ ?_
        · unfold noDup at hnd ⊢
          rw [List.pairwise_append]
          refine ⟨hnd, List.pairwise_singleton _ _, ?_⟩
          intro a ha b hb
          rw [List.mem_singleton] at hb
          subst hb
          have := List.any_eq_false.mp (Bool.not_eq_true _ ▸ hmem) a ha
          simpa using this
        · simpa [hmem] using hok

/-- C6: `ArchivedURLSet` insertion checks — `append` raises a
`TypeError` for a non-`ArchivedURL` value, a `ValueError` when an equal
page is already present, and on success appends exactly the new page;
the same checks run during construction, so both a freshly constructed
set and a set extended by a successful `append` are duplicate-free
(under `ArchivedURL.__eq__`).  A failed insertion returns only the
exception, leaving the contents unchanged. -/
theorem urlset_insert_checks (self : List ArchivedURL)
    (vals : List PyVal) (v : PyVal) (hnd : noDup self) :
    (∀ n, v = PyVal.other n →
      ArchivedURLSet.append self v = Except.error PyExc.typeError) ∧
    (∀ p, v = PyVal.page p →
      (∃ o ∈ self, ArchivedURL.eqMethod o p = true) →
      ArchivedURLSet.append self v = Except.error PyExc.valueError) ∧
    (∀ l, ArchivedURLSet.append self v = Except.ok l →
      noDup l ∧ ∃ p, v = PyVal.page p ∧ l = self ++ [p]) ∧
    (∀ l, ArchivedURLSet.init vals = Except.ok l → noDup l) := by
  refine ⟨?_, ?_, ?_, ?_⟩
  · intro n hv
    subst hv
    rfl
  · intro p hv hex
    subst hv
    have hany : self.any (fun o => ArchivedURL.eqMethod o p) = true := by
      rw [List.any_eq_true]
      obtain ⟨o, ho, heq⟩ := hex
      exact ⟨o, ho, heq⟩
    simp [ArchivedURLSet.append, hany]
  · intro l hok
    cases v with
    | other n => simp [ArchivedURLSet.append] at hok
    | page p =>
      simp only [ArchivedURLSet.append] at hok
      by_cases hany : self.any (fun o => ArchivedURL.eqMethod o p) = true
      · simp [hany] at hok
      · simp only [hany, if_false, Bool.not_eq_true] at hok
        rw [Bool.not_eq_true] at hany
        simp only [hany, Bool.false_eq_true, if_false] at hok
        cases hok
        refine ⟨?_, p, rfl, rfl⟩
        unfold noDup at hnd ⊢
        rw [List.pairwise_append]
        refine ⟨hnd, List.pairwise_singleton _ _, ?_⟩
        intro a ha b hb
        rw [List.mem_singleton] at hb
        subst hb
        have := List.any_eq_false.mp hany a ha
        simpa using this
  · intro l hok
    exact initLoop_noDup vals [] l (List.Pairwise.nil) hok

/-- C6 witness: appending a non-`ArchivedURL` value to the empty set
raises the `TypeError`-equivalent. -/
theorem urlset_insert_checks_witness :
    ArchivedURLSet.append [] (PyVal.other 0) =
      Except.error PyExc.typeError :=
  (urlset_insert_checks [] [] (PyVal.other 0) List.Pairwise.nil).1 0 rfl

/-- Helper: the reference-level `__init__` loop returns exactly the
caller's original references, in order, with no copy. -/
theorem initRefLoop_ok (st : Store) (rest : List Nat) :
    ∀ seen l, initRefLoop st seen rest = Except.ok l → l = seen ++ rest := by
  induction rest with
  | nil =>
    intro seen l hok
    simp only [initRefLoop] at hok
    cases hok
    simp
  | cons a rest ih =>
    intro seen l hok
    simp only [initRefLoop] at hok
    cases hg : st.get a with
    | none => simp [hg] at hok
    | some p =>
      simp only [hg] at hok
      by_cases hdup : (seen.any fun b =>
          match st.get b with
          | some q => ArchivedURL.eqMethod q p
          | none => false) = true
      · simp [hdup] at hok
      · simp only [hdup, if_false, Bool.not_eq_true] at hok
        rw [Bool.not_eq_true] at hdup
        simp only [hdup, Bool.false_eq_true, if_false] at hok
        have := ih (seen ++ [a]) l hok
        simpa [List.append_assoc] using this

/-- C7 counterexample: construction stores the caller's original
references, not copies.  Build a set from the single original at
address 0, then mutate that original in place (change its `html`): the
mutation is visible through the container's stored reference. -/
theorem urlset_init_aliases_original :
    ArchivedURLSet.initRef ⟨[⟨"http://a.com", "t1", "old"⟩]⟩ [0] =
      Except.ok [0] ∧
    Store.get
      (Store.set ⟨[⟨"http://a.com", "t1", "old"⟩]⟩ 0
        ⟨"http://a.com", "t1", "new"⟩) 0 =
      some ⟨"http://a.com", "t1", "new"⟩ ∧
    (⟨"http://a.com", "t1", "new"⟩ : ArchivedURL) ≠
      ⟨"http://a.com", "t1", "old"⟩ := by
  refine ⟨rfl, rfl, by decide⟩

/-- C7 (amended): a successful `append` stores a shallow copy at a
fresh address — mutating the caller's original object afterwards is not
observable through the container's new element — but construction from
an initial list stores the original references themselves (no copy), so
mutations of those originals are observable through the container. -/
theorem urlset_append_copies_init_aliases (st : Store)
    (self addrs : List Nat) (a : Nat) (st2 : Store) (self2 : List Nat)
    (hap : ArchivedURLSet.appendRef st self a = Except.ok (st2, self2)) :
    (self2 = self ++ [st.pages.length] ∧
     Store.get st2 st.pages.length = Store.get st a ∧
     ∀ q, Store.get (Store.set st2 a q) st.pages.length =
       Store.get st a) ∧
    (∀ l, ArchivedURLSet.initRef st addrs = Except.ok l → l = addrs) := by
  constructor
  · simp only [ArchivedURLSet.appendRef] at hap
    cases hg : st.get a with
    | none => simp [hg] at hap
    | some p =>
      simp only [hg] at hap
      by_cases hdup : (self.any fun b =>
          match st.get b with
          | some q => ArchivedURL.eqMethod q p
          | none => false) = true
      · simp [hdup] at hap
      · simp only [hdup, if_false, Bool.not_eq_true] at hap
        rw [Bool.not_eq_true] at hdup
        simp only [hdup, Bool.false_eq_true, if_false] at hap
        cases hap
        have hlt : a < st.pages.length := by
          have := hg
          unfold Store.get at this
          exact (List.get?_eq_some.mp this).1
        refine ⟨rfl, ?_, ?_⟩
        · unfold Store.get
          simp [hg, List.get?_concat_length]
        · intro q
          unfold Store.get Store.set
          have hne : a ≠ st.pages.length := Nat.ne_of_lt hlt
          rw [List.get?_set_ne _ _ hne]
          simp [hg, List.get?_concat_length]
  · intro l hok
    simpa using initRefLoop_ok st addrs [] l hok

/-- C7 witness: the amended theorem at a one-page store, appending the
page at address 0 into an empty set. -/
theorem urlset_append_copies_witness :
    (([1] : List Nat) =
       [] ++ [(Store.mk [⟨"http://a.com", "t1", "h"⟩]).pages.length] ∧
     Store.get (Store.mk [⟨"http://a.com", "t1", "h"⟩,
         ⟨"http://a.com", "t1", "h"⟩])
         (Store.mk [⟨"http://a.com", "t1", "h"⟩]).pages.length =
       Store.get (Store.mk [⟨"http://a.com", "t1", "h"⟩]) 0 ∧
     ∀ q, Store.get
         (Store.set (Store.mk [⟨"http://a.com", "t1", "h"⟩,
             ⟨"http://a.com", "t1", "h"⟩]) 0 q)
         (Store.mk [⟨"http://a.com", "t1", "h"⟩]).pages.length =
       Store.get (Store.mk [⟨"http://a.com", "t1", "h"⟩]) 0) ∧
    (∀ l, ArchivedURLSet.initRef
        (Store.mk [⟨"http://a.com", "t1", "h"⟩]) [] = Except.ok l →
      l = []) :=
  urlset_append_copies_init_aliases
    (Store.mk [⟨"http://a.com", "t1", "h"⟩]) [] [] 0
    (Store.mk [⟨"http://a.com", "t1", "h"⟩, ⟨"http://a.com", "t1", "h"⟩])
    [1] rfl

/-- Helper: the Python 2 key order is reflexive. -/
theorem pyGeArea_refl (a : Option Int) : pyGeArea a a = true := by
  cases a <;> simp [pyGeArea]

/-- Helper: the Python 2 key order is total. -/
theorem pyGeArea_total (a b : Option Int) (h : pyGeArea a b = false) :
    pyGeArea b a = true := by
  cases a <;> cases b <;> simp_all [pyGeArea] <;> omega

/-- Helper: the Python 2 key order is transitive. -/
theorem pyGeArea_trans (a b c : Option Int) (hab : pyGeArea a b = true)
    (hbc : pyGeArea b c = true) : pyGeArea a c = true := by
  cases a <;> cases b <;> cases c <;> simp_all [pyGeArea] <;> omega

/-- Helper: the head of a stable descending insertion. -/
theorem insertDesc_head (x : Image) (L : List Image) :
    (insertDesc x L).head? =
      some (match L with
        | [] => x
        | y :: _ => if pyGeArea x.area y.area then x else y) := by
  cases L with
  | nil => rfl
  | cons y ys =>
    by_cases hge : pyGeArea x.area y.area = true
    · simp [insertDesc, hge]
    · rw [Bool.not_eq_true] at hge
      simp [insertDesc, hge]

/-- Helper: `largest_image` is the optional head of the sorted list. -/
theorem largest_head (l : List Image) :
    largest_image l = (sortDescByArea l).head? := by
  unfold largest_image
  cases sortDescByArea l <;> rfl

/-- Helper: `largest_image` is the head of the stable descending sort,
i.e. the first element attaining the maximal area key. -/
theorem largest_eq_pick (l : List Image) :
    largest_image l = pickFirstMax l := by
  induction l with
  | nil => rfl
  | cons x xs ih =>
    have hx : largest_image xs = (sortDescByArea xs).head? :=
      largest_head xs
    have hhd : largest_image (x :: xs) =
        (insertDesc x (sortDescByArea xs)).head? := by
      rw [largest_head]
      rfl
    rw [hhd, insertDesc_head]
    cases hL : sortDescByArea xs with
    | nil =>
      have hpick : pickFirstMax xs = none := by
        rw [← ih, hx, hL]
        rfl
      simp [pickFirstMax, hpick]
    | cons y ys =>
      have hpick : pickFirstMax xs = some y := by
        rw [← ih, hx, hL]
        rfl
      by_cases hge : pyGeArea x.area y.area = true
      · simp [pickFirstMax, hpick, hge]
      · rw [Bool.not_eq_true] at hge
        simp [pickFirstMax, hpick, hge]

/-- Helper: `pickFirstMax` returns a member whose area key weakly
dominates every element, and every strictly earlier element has a
strictly smaller key (first occurrence wins ties). -/
theorem pickFirstMax_spec (l : List Image) (m : Image)
    (hm : pickFirstMax l = some m) :
    ∃ pre post, l = pre ++ m :: post ∧
      (∀ x ∈ l, pyGeArea m.area x.area = true) ∧
      (∀ x ∈ pre, pyGeArea x.area m.area = false) := by
  induction l generalizing m with
  | nil => simp [pickFirstMax] at hm
  | cons x xs ih =>
    cases hp : pickFirstMax xs with
    | none =>
      have hxs : xs = [] := by
        cases xs with
        | nil => rfl
        | cons z zs =>
          exfalso
          simp only [pickFirstMax] at hp
          cases hq : pickFirstMax zs with
          | none => simp [hq] at hp
          | some w =>
            simp only [hq] at hp
            by_cases hge : pyGeArea z.area w.area = true
            · simp [hge] at hp
            · rw [Bool.not_eq_true] at hge
              simp [hge] at hp
      subst hxs
      simp only [pickFirstMax] at hm
      cases hm
      refine ⟨[], [], rfl, ?_, by simp⟩
      intro z hz
      rw [List.mem_singleton] at hz
      subst hz
      exact pyGeArea_refl _
    | some y =>
      simp only [pickFirstMax, hp] at hm
      by_cases hge : pyGeArea x.area y.area = true
      · simp only [hge, if_true] at hm
        cases hm
        obtain ⟨pre, post, hsplit, hall, hpre⟩ := ih y hp
        refine ⟨[], xs, rfl, ?_, by simp⟩
        intro z hz
        rcases List.mem_cons.mp hz with hz | hz
        · subst hz
          exact pyGeArea_refl _
        · exact pyGeArea_trans _ _ _ hge (hall z hz)
      · rw [Bool.not_eq_true] at hge
        simp only [hge, Bool.false_eq_true, if_false] at hm
        cases hm
        obtain ⟨pre, post, hsplit, hall, hpre⟩ := ih m hp
        refine ⟨x :: pre, post, by rw [hsplit]; rfl, ?_, ?_⟩
        · intro z hz
          rcases List.mem_cons.mp hz with hz | hz
          · subst hz
            exact pyGeArea_total _ _ hge
          · exact hall z hz
        · intro z hz
          rcases List.mem_cons.mp hz with hz | hz
          · subst hz
            exact hge
          · exact hpre z hz

/-- C8 counterexample: `largest_image` over a single cached image with
no computable `area` returns that image, not `None` — the claim says it
returns nothing when there are no images with a computable area, but
the code returns `None` only when the image list itself is empty. -/
theorem largest_image_no_area_returns_image :
    (Image.mk "http://example.com/i.jpg" none none none none).area =
      none ∧
    largest_image [Image.mk "http://example.com/i.jpg" none none none
        none] =
      some (Image.mk "http://example.com/i.jpg" none none none none) :=
  ⟨rfl, rfl⟩

/-- C8 (amended): `largest_image` returns `None` exactly when the
cached image list is empty; otherwise it returns the first image (in
document order) whose area key is maximal under the Python 2 ordering
in which a missing area compares below every numeric area — so on
exact-area ties the first occurrence wins, but when every image lacks a
computable area the first image is returned rather than `None`. -/
theorem largest_image_amended (imgs : List Image) (hne : imgs ≠ []) :
    largest_image ([] : List Image) = none ∧
    ∃ m pre post, largest_image imgs = some m ∧
      imgs = pre ++ m :: post ∧
      (∀ x ∈ imgs, pyGeArea m.area x.area = true) ∧
      (∀ x ∈ pre, pyGeArea x.area m.area = false) := by
  refine ⟨rfl, ?_⟩
  cases imgs with
  | nil => exact absurd rfl hne
  | cons x xs =>
    have hsome : ∃ m, pickFirstMax (x :: xs) = some m := by
      simp only [pickFirstMax]
      cases pickFirstMax xs with
      | none => exact ⟨x, rfl⟩
      | some y =>
        by_cases hge : pyGeArea x.area y.area = true
        · exact ⟨x, by simp [hge]⟩
        · rw [Bool.not_eq_true] at hge
          exact ⟨y, by simp [hge]⟩
    obtain ⟨m, hm⟩ := hsome
    obtain ⟨pre, post, hsplit, hall, hpre⟩ := pickFirstMax_spec _ m hm
    exact ⟨m, pre, post, by rw [largest_eq_pick]; exact hm, hsplit,
      hall, hpre⟩

/-- C8 witness: the amended theorem on two concrete images whose areas
tie (2×6 and 3×4): the first occurrence is returned. -/
theorem largest_image_amended_witness :
    [Image.mk "a" (some 2) (some 6) none none,
     Image.mk "b" (some 3) (some 4) none none] ≠ [] ∧
    (largest_image ([] : List Image) = none ∧
     ∃ m pre post,
       largest_image [Image.mk "a" (some 2) (some 6) none none,
         Image.mk "b" (some 3) (some 4) none none] = some m ∧
       [Image.mk "a" (some 2) (some 6) none none,
        Image.mk "b" (some 3) (some 4) none none] = pre ++ m :: post ∧
       (∀ x ∈ [Image.mk "a" (some 2) (some 6) none none,
          Image.mk "b" (some 3) (some 4) none none],
          pyGeArea m.area x.area = true) ∧
       (∀ x ∈ pre, pyGeArea x.area m.area = false)) :=
  ⟨by decide,
   largest_image_amended
     [Image.mk "a" (some 2) (some 6) none none,
      Image.mk "b" (some 3) (some 4) none none] (by decide)⟩

/-- Helper: `Except` bind on a success reduces to the continuation. -/
theorem exceptBind_ok {ε α β : Type} (a : α) (f : α → Except ε β) :
    (Except.ok a : Except ε α) >>= f = f a := rfl

/-- Helper: `Except` bind on an error propagates the error. -/
theorem exceptBind_err {ε α β : Type} (e : ε) (f : α → Except ε β) :
    (Except.error e : Except ε α) >>= f = Except.error e := rfl

/-- Helper: `Except` map on a success applies the function. -/
theorem exceptMap_ok {ε α β : Type} (f : α → β) (a : α) :
    f <$> (Except.ok a : Except ε α) = Except.ok (f a) := rfl

/-- Helper: `Except` map on an error propagates the error. -/
theorem exceptMap_err {ε α β : Type} (f : α → β) (e : ε) :
    f <$> (Except.error e : Except ε α) = Except.error e := rfl

/-- Helper: the per-image cells contribute exactly seven columns per
nested image. -/
theorem flatMapCells_length (l : List Image) :
    (l.flatMap csvImageCells).length = 7 * l.length := by
  induction l with
  | nil => rfl
  | cons x xs ih =>
    simp only [List.flatMap_cons, List.length_append, ih,
      List.length_cons]
    simp [csvImageCells]
    omega

/-- Helper: a successfully built `__csv__` row has the eight fixed
cells plus seven per nested image. -/
theorem csv_length (guess : String → Except PyExc Bool) (h : Hyperlink)
    (r : List String) (hok : Hyperlink.csv guess h = Except.ok r) :
    r.length = 8 + 7 * h.images.length := by
  simp only [Hyperlink.csv] at hok
  cases hs : Hyperlink.is_story guess h with
  | error e => simp [hs, exceptBind_err] at hok
  | ok b =>
    simp only [hs, exceptBind_ok, pure, Except.pure, Except.ok.injEq]
      at hok
    rw [← hok, List.length_append, flatMapCells_length]
    simp only [List.length_cons, List.length_nil]

/-- Helper: the rows built by the exporter loop correspond one-to-one
with the links, each row 10 + 7·(images on that link) cells wide. -/
theorem buildRows_forall2 (guess : String → Except PyExc Bool)
    (url timestamp : String) :
    ∀ links rows,
      buildRows guess url timestamp links = Except.ok rows →
      List.Forall₂ (fun (r : List String) (h : Hyperlink) =>
        r.length = 10 + 7 * h.images.length) rows links := by
  intro links
  induction links with
  | nil =>
    intro rows hok
    simp only [buildRows] at hok
    cases hok
    exact List.Forall₂.nil
  | cons h rest ih =>
    intro rows hok
    simp only [buildRows] at hok
    cases hc : Hyperlink.csv guess h with
    | error e => simp [hc, exceptBind_err] at hok
    | ok c =>
      cases hr : buildRows guess url timestamp rest with
      | error e => simp [hc, hr, exceptBind_ok, exceptMap_err] at hok
      | ok rs =>
        simp only [hc, hr, exceptBind_ok, exceptMap_ok, pure,
          Except.pure, Except.ok.injEq] at hok
        rw [← hok]
        refine List.Forall₂.cons ?_ (ih rs hr)
        have := csv_length guess h c hc
        simp [this]
        omega

/-- Helper: the image-slot headers contribute seven columns per slot. -/
theorem slotHeaders_length (k : Nat) :
    ((List.range k).flatMap fun i => imageSlotHeaders (i + 1)).length =
      7 * k := by
  induction k with
  | zero => rfl
  | succ n ih =>
    rw [List.range_succ]
    simp only [List.flatMap_append, List.length_append, ih]
    simp [imageSlotHeaders]
    omega

/-- C3: for a page with at least one cached link, the exporter emits
one row per link of exactly 10 + 7·(images nested in that link) cells
(no padding), and a header row of 10 + 7·⌊(longestRow − 10)/7⌋ cells
whose image-slot names are numbered from 1 (`imageSlotHeaders (i + 1)`
for slot index `i`). -/
theorem exporter_header_and_row_lengths
    (guess : String → Except PyExc Bool) (url timestamp : String)
    (links : List Hyperlink) (hs : List String)
    (rows : List (List String)) (hne : links ≠ [])
    (hok : write_hyperlinks_csv guess url timestamp links =
      Except.ok (hs, rows)) :
    List.Forall₂ (fun (r : List String) (h : Hyperlink) =>
      r.length = 10 + 7 * h.images.length) rows links ∧
    ∃ L, pyMax (rows.map List.length) = Except.ok L ∧
      hs.length = 10 + 7 * ((L - 10) / 7) ∧
      hs = fixedHeaders ++ (List.range ((L - 10) / 7)).flatMap
        (fun i => imageSlotHeaders (i + 1)) := by
  simp only [write_hyperlinks_csv] at hok
  cases hb : buildRows guess url timestamp links with
  | error e => simp [hb, exceptBind_err] at hok
  | ok rl =>
    simp only [hb, exceptBind_ok] at hok
    cases hm : pyMax (rl.map List.length) with
    | error e => simp [hm, exceptMap_err] at hok
    | ok L =>
      simp only [hm, exceptMap_ok] at hok
      have hpair : (buildHeaders L, rl) = (hs, rows) := Except.ok.inj hok
      have hhs : buildHeaders L = hs := congrArg Prod.fst hpair
      have hrows : rl = rows := congrArg Prod.snd hpair
      subst hrows
      constructor
      · exact buildRows_forall2 guess url timestamp links rl hb
      · refine ⟨L, hm, ?_, ?_⟩
        · rw [← hhs]
          simp only [buildHeaders, List.length_append,
            slotHeaders_length]
          rfl
        · rw [← hhs]
          rfl

/-- C3 witness: a page with one image-free link and one link holding a
single 100×50 image: rows of 10 and 17 cells, header of 17 cells with
the slot named `image_1_*`. -/
theorem exporter_header_and_row_lengths_witness :
    List.Forall₂ (fun (r : List String) (h : Hyperlink) =>
      r.length = 10 + 7 * h.images.length)
      [exRow0, exRow1] [exLink0, exLink1] ∧
    ∃ L, pyMax ([exRow0, exRow1].map List.length) = Except.ok L ∧
      exHeaders.length = 10 + 7 * ((L - 10) / 7) ∧
      exHeaders = fixedHeaders ++ (List.range ((L - 10) / 7)).flatMap
        (fun i => imageSlotHeaders (i + 1)) :=
  exporter_header_and_row_lengths exGuess "u" "t" [exLink0, exLink1]
    exHeaders [exRow0, exRow1] (List.cons_ne_nil _ _) rfl

end Storytracker
